import Mathlib

/-
Verification of the S3 storage module (telegram-bot-api/S3Storage.{h,cpp}).

The module is embedded shallowly: the streaming multipart-upload engine
(`S3StreamingUpload` and its pimpl `Impl`) becomes explicit state passing
over an `ImplState` / `S3StreamingUpload` record pair, and the remote
object store (the AWS S3 client) becomes an oracle: a `World` holding an
environment function that answers each remote call, together with the
ordered trace of calls issued so far.  Pure facade helpers
(`get_full_key`, `get_public_url`, `get_file_url`) are translated
directly.
-/

namespace S3V

/-- Minimum multipart part size, from S3Storage.h: 5 * 1024 * 1024 bytes. -/
def MIN_PART_SIZE : Nat := 5 * 1024 * 1024

/-- Configuration record, from `struct S3Config` in S3Storage.h. -/
structure S3Config where
  bucket : String := ""
  region : String := ""
  access_key_id : String := ""
  secret_access_key : String := ""
  endpoint : String := ""
  path_prefix : String := ""
  use_path_style : Bool := false
  use_public_urls : Bool := false
  use_path_only : Bool := false
  presigned_url_expiry_seconds : Int := 3600

/-- `S3Config::is_enabled` from S3Storage.h. -/
def S3Config.is_enabled (c : S3Config) : Bool :=
  !c.bucket.isEmpty && !c.access_key_id.isEmpty && !c.secret_access_key.isEmpty

/-- One recorded part, from `Aws::S3::Model::CompletedPart` as used by the code:
part number plus the ETag returned by the remote store. -/
structure CompletedPart where
  part_number : Nat
  etag : String
deriving DecidableEq

/-- The remote-store requests the module issues (the arguments the code sets
on each AWS request object, restricted to the fields the module computes). -/
inductive RemoteCall where
  | createMultipartUpload (bucket key : String)
  | uploadPart (bucket key uploadId : String) (partNumber : Nat) (body : List UInt8)
  | completeMultipartUpload (bucket key uploadId : String) (parts : List CompletedPart)
  | abortMultipartUpload (bucket key uploadId : String)
  | generatePresignedUrl (bucket key : String) (expiry : Int)
deriving DecidableEq

/-- A remote outcome: success with a string payload (upload id, ETag, or URL,
depending on the call), or an error message. -/
inductive RemoteResult where
  | ok (payload : String)
  | err (msg : String)
deriving DecidableEq

/-- The remote store as seen by the module: an environment that answers the
n-th call, and the trace of calls issued so far. -/
structure World where
  env : Nat → RemoteCall → RemoteResult
  calls : List RemoteCall

/-- Issue one remote call: the response is the environment's answer for the
current call index, and the call is appended to the trace. -/
def callRemote (w : World) (c : RemoteCall) : RemoteResult × World :=
  (w.env w.calls.length c, { w with calls := w.calls ++ [c] })

/-- State of `S3StreamingUpload::Impl` from S3Storage.cpp. -/
structure ImplState where
  full_key : String
  upload_id : String := ""
  completed_parts : List CompletedPart := []
  buffered_data : List UInt8 := []
deriving DecidableEq

/-- `S3StreamingUpload::Impl::init` (S3Storage.cpp lines 221-240). -/
def ImplState.init (cfg : S3Config) (st : ImplState) (w : World) :
    Except String Unit × ImplState × World :=
  let (res, w) := callRemote w (RemoteCall.createMultipartUpload cfg.bucket st.full_key)
  match res with
  | RemoteResult.err m => (Except.error ("Failed to create multipart upload: " ++ m), st, w)
  | RemoteResult.ok uploadId => (Except.ok (), { st with upload_id := uploadId }, w)

/-- Body of `Impl::flush_buffer_part` from the `part_size == 0` check onward
(S3Storage.cpp lines 266-297), with the part size already determined. -/
def ImplState.flushAt (cfg : S3Config) (st : ImplState) (w : World) (part_size : Nat) :
    Except String Unit × ImplState × World :=
  if part_size = 0 then (Except.ok (), st, w)
  else
    let part_number := st.completed_parts.length + 1
    let c := RemoteCall.uploadPart cfg.bucket st.full_key st.upload_id part_number
              (st.buffered_data.take part_size)
    let (res, w) := callRemote w c
    match res with
    | RemoteResult.err m =>
        (Except.error ("Failed to upload part " ++ toString part_number ++ ": " ++ m), st, w)
    | RemoteResult.ok etag =>
        (Except.ok (),
         { st with
            completed_parts :=
              st.completed_parts ++ [{ part_number := part_number, etag := etag }],
            buffered_data := st.buffered_data.drop part_size },
         w)

/-- `Impl::flush_buffer_part` (S3Storage.cpp lines 252-298): empty buffer is a
no-op; a final flush takes the whole buffer; a streaming flush takes exactly
`MIN_PART_SIZE` bytes when available and is otherwise a no-op. -/
def ImplState.flush_buffer_part (cfg : S3Config) (st : ImplState) (w : World) (is_final : Bool) :
    Except String Unit × ImplState × World :=
  if st.buffered_data.isEmpty then (Except.ok (), st, w)
  else if is_final then ImplState.flushAt cfg st w st.buffered_data.length
  else if MIN_PART_SIZE ≤ st.buffered_data.length then ImplState.flushAt cfg st w MIN_PART_SIZE
  else (Except.ok (), st, w)

/-- The `while (buffered_data_.size() >= MIN_PART_SIZE)` loop of
`Impl::upload_part` (S3Storage.cpp lines 245-247), with an explicit fuel
parameter.  Fuel equal to the buffer length bounds the iteration count: each
continuing iteration requires at least `MIN_PART_SIZE ≥ 1` buffered bytes and
removes exactly `MIN_PART_SIZE` of them. -/
def implUploadLoopFuel (cfg : S3Config) : Nat → ImplState → World →
    Except String Unit × ImplState × World
  | 0, st, w => (Except.ok (), st, w)
  | fuel + 1, st, w =>
    if MIN_PART_SIZE ≤ st.buffered_data.length then
      match ImplState.flush_buffer_part cfg st w false with
      | (Except.error m, st2, w2) => (Except.error m, st2, w2)
      | (Except.ok _, st2, w2) => implUploadLoopFuel cfg fuel st2 w2
    else (Except.ok (), st, w)

/-- The flush loop of `Impl::upload_part`, entered with fuel equal to the
current buffer length. -/
def implUploadLoop (cfg : S3Config) (st : ImplState) (w : World) :
    Except String Unit × ImplState × World :=
  implUploadLoopFuel cfg st.buffered_data.length st w

/-- `Impl::upload_part` (S3Storage.cpp lines 242-250): append the data to the
pending buffer, then flush minimum-size parts while possible.  The `offset`
argument is accepted and ignored, exactly as in the source. -/
def ImplState.upload_part (cfg : S3Config) (st : ImplState) (w : World)
    (_offset : Int) (data : List UInt8) : Except String Unit × ImplState × World :=
  implUploadLoop cfg { st with buffered_data := st.buffered_data ++ data } w

/-- `Impl::abort` (S3Storage.cpp lines 328-349): no-op when no session id is
recorded; otherwise issue the remote abort (its failure is only logged), then
clear the session id, the recorded parts and the pending buffer, and succeed. -/
def ImplState.abort (cfg : S3Config) (st : ImplState) (w : World) :
    Except String Unit × ImplState × World :=
  if st.upload_id.isEmpty then (Except.ok (), st, w)
  else
    let (_, w) := callRemote w (RemoteCall.abortMultipartUpload cfg.bucket st.full_key st.upload_id)
    (Except.ok (), { st with upload_id := "", completed_parts := [], buffered_data := [] }, w)

/-- `Impl::complete` (S3Storage.cpp lines 300-326): final flush, then the
degenerate-empty check (abort plus "No data was uploaded"), then the remote
completion call listing every recorded part. -/
def ImplState.complete (cfg : S3Config) (st : ImplState) (w : World) :
    Except String String × ImplState × World :=
  match ImplState.flush_buffer_part cfg st w true with
  | (Except.error m, st, w) => (Except.error m, st, w)
  | (Except.ok _, st, w) =>
    if st.completed_parts.isEmpty then
      let (_, st, w) := ImplState.abort cfg st w
      (Except.error "No data was uploaded", st, w)
    else
      let c := RemoteCall.completeMultipartUpload cfg.bucket st.full_key st.upload_id
                st.completed_parts
      let (res, w) := callRemote w c
      match res with
      | RemoteResult.err m =>
          (Except.error ("Failed to complete multipart upload: " ++ m), st, w)
      | RemoteResult.ok _ => (Except.ok st.full_key, st, w)

/-- Lifecycle states, from `enum class Status` in S3Storage.h. -/
inductive UploadStatus where
  | NotStarted
  | InProgress
  | Completed
  | Failed
  | Aborted
deriving DecidableEq

/-- `S3Storage::Impl::get_full_key` (S3Storage.cpp lines 203-208). -/
def get_full_key (cfg : S3Config) (s3_key : String) : String :=
  if cfg.path_prefix.isEmpty then s3_key
  else cfg.path_prefix ++ "/" ++ s3_key

/-- State of the public `S3StreamingUpload` wrapper object (S3Storage.h). -/
structure S3StreamingUpload where
  impl : ImplState
  s3_key : String
  expected_size : Int
  uploaded_bytes : Nat := 0
  status : UploadStatus := UploadStatus.NotStarted
deriving DecidableEq

/-- The `S3StreamingUpload` constructor (S3Storage.cpp lines 360-368): bind
the prefix-resolved full key, start with no session, empty buffer, zero byte
counter and status NotStarted. -/
def S3StreamingUpload.create (cfg : S3Config) (s3_key : String) (expected_size : Int) :
    S3StreamingUpload :=
  { impl := { full_key := get_full_key cfg s3_key }
    s3_key := s3_key
    expected_size := expected_size }

/-- `S3StreamingUpload::init` (S3Storage.cpp lines 379-390). -/
def S3StreamingUpload.init (cfg : S3Config) (u : S3StreamingUpload) (w : World) :
    Except String Unit × S3StreamingUpload × World :=
  if u.status ≠ UploadStatus.NotStarted then (Except.error "Upload already started", u, w)
  else
    match ImplState.init cfg u.impl w with
    | (Except.error m, st, w) =>
        (Except.error m, { u with impl := st, status := UploadStatus.Failed }, w)
    | (Except.ok _, st, w) =>
        (Except.ok (), { u with impl := st, status := UploadStatus.InProgress }, w)

/-- `S3StreamingUpload::upload_part` (S3Storage.cpp lines 392-403). -/
def S3StreamingUpload.upload_part (cfg : S3Config) (u : S3StreamingUpload) (w : World)
    (offset : Int) (data : List UInt8) : Except String Unit × S3StreamingUpload × World :=
  if u.status ≠ UploadStatus.InProgress then (Except.error "Upload not in progress", u, w)
  else
    match ImplState.upload_part cfg u.impl w offset data with
    | (Except.error m, st, w) =>
        (Except.error m, { u with impl := st, status := UploadStatus.Failed }, w)
    | (Except.ok _, st, w) =>
        (Except.ok (),
         { u with impl := st, uploaded_bytes := u.uploaded_bytes + data.length }, w)

/-- `S3StreamingUpload::complete` (S3Storage.cpp lines 405-416). -/
def S3StreamingUpload.complete (cfg : S3Config) (u : S3StreamingUpload) (w : World) :
    Except String String × S3StreamingUpload × World :=
  if u.status ≠ UploadStatus.InProgress then (Except.error "Upload not in progress", u, w)
  else
    match ImplState.complete cfg u.impl w with
    | (Except.error m, st, w) =>
        (Except.error m, { u with impl := st, status := UploadStatus.Failed }, w)
    | (Except.ok k, st, w) =>
        (Except.ok k, { u with impl := st, status := UploadStatus.Completed }, w)

/-- `S3StreamingUpload::abort` (S3Storage.cpp lines 418-425). -/
def S3StreamingUpload.abort (cfg : S3Config) (u : S3StreamingUpload) (w : World) :
    Except String Unit × S3StreamingUpload × World :=
  if u.status = UploadStatus.Completed ∨ u.status = UploadStatus.Aborted then
    (Except.ok (), u, w)
  else
    let (res, st, w) := ImplState.abort cfg u.impl w
    (res, { u with impl := st, status := UploadStatus.Aborted }, w)

/-- `S3StreamingUpload::~S3StreamingUpload` (S3Storage.cpp lines 370-374):
teardown aborts if and only if the status is still InProgress. -/
def S3StreamingUpload.destroy (cfg : S3Config) (u : S3StreamingUpload) (w : World) :
    S3StreamingUpload × World :=
  if u.status = UploadStatus.InProgress then
    let (_, u, w) := S3StreamingUpload.abort cfg u w
    (u, w)
  else (u, w)

/-- `S3Storage::Impl::get_public_url` (S3Storage.cpp lines 154-174). -/
def get_public_url (cfg : S3Config) (s3_key : String) : String :=
  let full_key := get_full_key cfg s3_key
  if !cfg.endpoint.isEmpty then
    if cfg.use_path_style then
      cfg.endpoint ++ "/" ++ cfg.bucket ++ "/" ++ full_key
    else
      let endpoint :=
        if cfg.endpoint.startsWith "https://" then cfg.endpoint.drop 8
        else if cfg.endpoint.startsWith "http://" then cfg.endpoint.drop 7
        else cfg.endpoint
      "https://" ++ cfg.bucket ++ "." ++ endpoint ++ "/" ++ full_key
  else
    "https://" ++ cfg.bucket ++ ".s3." ++ cfg.region ++ ".amazonaws.com/" ++ full_key

/-- `S3Storage::Impl::get_presigned_url` (S3Storage.cpp lines 141-152): the
SDK's URL is the oracle's payload; an empty URL is the failure case. -/
def get_presigned_url (cfg : S3Config) (s3_key : String) (w : World) :
    Except String String × World :=
  let full_key := get_full_key cfg s3_key
  let (res, w) := callRemote w
    (RemoteCall.generatePresignedUrl cfg.bucket full_key cfg.presigned_url_expiry_seconds)
  let url := match res with
    | RemoteResult.ok s => s
    | RemoteResult.err _ => ""
  if url.isEmpty then (Except.error "Failed to generate presigned URL", w)
  else (Except.ok url, w)

/-- The `S3Storage` facade: its pimpl is non-null exactly when the config is
enabled (S3Storage.cpp lines 427-431). -/
structure S3Storage where
  config : S3Config

/-- Whether the facade's pimpl is present: `S3Storage::is_enabled`. -/
def S3Storage.enabled (s : S3Storage) : Bool :=
  S3Config.is_enabled s.config

/-- `S3Storage::get_file_url` (S3Storage.cpp lines 468-479): disabled check,
then path-only, then public-URL, then presigned. -/
def S3Storage.get_file_url (s : S3Storage) (s3_key : String) (w : World) :
    Except String String × World :=
  if !S3Storage.enabled s then (Except.error "S3 storage is not enabled", w)
  else if s.config.use_path_only then (Except.ok (get_full_key s.config s3_key), w)
  else if s.config.use_public_urls then (Except.ok (get_public_url s.config s3_key), w)
  else get_presigned_url s.config s3_key w

/-- Drive one upload through a list of `upload_part` calls, stopping at the
first error: the caller-side loop the byte-counter property quantifies over. -/
def runUploads (cfg : S3Config) : S3StreamingUpload → World → List (Int × List UInt8) →
    Except String Unit × S3StreamingUpload × World
  | u, w, [] => (Except.ok (), u, w)
  | u, w, (off, d) :: rest =>
    match S3StreamingUpload.upload_part cfg u w off d with
    | (Except.ok _, u2, w2) => runUploads cfg u2 w2 rest
    | (Except.error m, u2, w2) => (Except.error m, u2, w2)

/-- States an external caller can drive an `S3StreamingUpload` into through
its public interface, starting from the constructor. -/
inductive Reachable (cfg : S3Config) : S3StreamingUpload → World → Prop where
  | start (key : String) (sz : Int) (w : World) :
      Reachable cfg (S3StreamingUpload.create cfg key sz) w
  | step_init {u w r u2 w2} : Reachable cfg u w →
      S3StreamingUpload.init cfg u w = (r, u2, w2) → Reachable cfg u2 w2
  | step_upload {u w off data r u2 w2} : Reachable cfg u w →
      S3StreamingUpload.upload_part cfg u w off data = (r, u2, w2) → Reachable cfg u2 w2
  | step_complete {u w r u2 w2} : Reachable cfg u w →
      S3StreamingUpload.complete cfg u w = (r, u2, w2) → Reachable cfg u2 w2
  | step_abort {u w r u2 w2} : Reachable cfg u w →
      S3StreamingUpload.abort cfg u w = (r, u2, w2) → Reachable cfg u2 w2
  | step_destroy {u w u2 w2} : Reachable cfg u w →
      S3StreamingUpload.destroy cfg u w = (u2, w2) → Reachable cfg u2 w2

/-- The recorded part numbers are exactly 1..N in order. -/
def PartsContiguous (st : ImplState) : Prop :=
  st.completed_parts.map CompletedPart.part_number = List.range' 1 st.completed_parts.length

/-- Every recorded part's tag was acknowledged by the remote store: the trace
holds an uploadPart call with that part number whose response was `ok tag`. -/
def TagsAcked (st : ImplState) (w : World) : Prop :=
  ∀ p ∈ st.completed_parts, ∃ pre suf b k uid body,
    w.calls = pre ++ RemoteCall.uploadPart b k uid p.part_number body :: suf ∧
    w.env pre.length (RemoteCall.uploadPart b k uid p.part_number body) =
      RemoteResult.ok p.etag

/-- An environment whose successful create-multipart responses always carry a
nonempty upload id, as a real remote store's do. -/
def NonemptyUploadIds (env : Nat → RemoteCall → RemoteResult) : Prop :=
  ∀ n b k s, env n (RemoteCall.createMultipartUpload b k) = RemoteResult.ok s → s ≠ ""

/-- A session-id sanity invariant of reachable states: InProgress implies a
session id is recorded, and with no session id the local buffer and part list
are empty. -/
def SessionInv (u : S3StreamingUpload) : Prop :=
  (u.status = UploadStatus.InProgress → u.impl.upload_id ≠ "") ∧
  (u.impl.upload_id = "" → u.impl.buffered_data = [] ∧ u.impl.completed_parts = [])

/-- Scheme stripping as the spec words it: remove any `http(s)://` scheme
from the endpoint. -/
def spec_strip_scheme (endpoint : String) : String :=
  if endpoint.startsWith "https://" then endpoint.drop 8
  else if endpoint.startsWith "http://" then endpoint.drop 7
  else endpoint

/-- Whether a remote call is an abort of a multipart session. -/
def isAbortCall : RemoteCall → Bool
  | RemoteCall.abortMultipartUpload _ _ _ => true
  | _ => false

/-- The uploadPart request that `flushAt` issues for a given part size. -/
def flushCall (cfg : S3Config) (st : ImplState) (part_size : Nat) : RemoteCall :=
  RemoteCall.uploadPart cfg.bucket st.full_key st.upload_id (st.completed_parts.length + 1)
    (st.buffered_data.take part_size)

/-- The part-list invariant: contiguous numbering plus remote-acknowledged
tags. -/
def ImplInv (st : ImplState) (w : World) : Prop :=
  PartsContiguous st ∧ TagsAcked st w

/-- A small enabled configuration used to evaluate the theorems on concrete
inputs. -/
def cfgW : S3Config :=
  { bucket := "b", region := "r", access_key_id := "id", secret_access_key := "sec" }

/-- An environment that acknowledges every call with the payload "tag". -/
def envOk : Nat → RemoteCall → RemoteResult := fun _ _ => RemoteResult.ok "tag"

/-- A fresh world over `envOk`. -/
def wW : World := { env := envOk, calls := [] }

/-- A concrete in-progress upload whose session id is "U". -/
def uIP : S3StreamingUpload :=
  { impl := { full_key := "k", upload_id := "U" }
    s3_key := "k"
    expected_size := -1
    status := UploadStatus.InProgress }

/-- A concrete upload in the terminal Completed state. -/
def uDone : S3StreamingUpload :=
  { impl := { full_key := "k" }
    s3_key := "k"
    expected_size := -1
    status := UploadStatus.Completed }

/-- Concrete run: init from a fresh instance over `envOk`. -/
def initW : Except String Unit × S3StreamingUpload × World :=
  S3StreamingUpload.init cfgW (S3StreamingUpload.create cfgW "k" (-1)) wW

/-- Concrete caller chunking used for the byte-counter claim. -/
def chunksW : List (Int × List UInt8) := [(0, [1, 2]), (7, [3])]

/-- Concrete run of `chunksW` after `initW`. -/
def runW : Except String Unit × S3StreamingUpload × World :=
  runUploads cfgW initW.2.1 initW.2.2 chunksW

/-- An enabled configuration with both `use_path_only` and `use_public_urls`
set. -/
def cfgPO : S3Config :=
  { bucket := "b", region := "r", access_key_id := "id", secret_access_key := "sec",
    use_public_urls := true, use_path_only := true }

/-- An enabled configuration with a scheme-carrying custom endpoint and
virtual-host addressing. -/
def cfgEP : S3Config :=
  { bucket := "b", region := "r", access_key_id := "id", secret_access_key := "sec",
    endpoint := "https://minio.local" }

/-- An environment that acknowledges the create and part-upload calls and
fails the third call onward. -/
def envC6 : Nat → RemoteCall → RemoteResult := fun n _ =>
  if n = 0 then RemoteResult.ok "U"
  else if n = 1 then RemoteResult.ok "tag1"
  else RemoteResult.err "boom"

/-- A fresh world over `envC6`. -/
def wC6start : World := { env := envC6, calls := [] }

/-- Concrete run over `envC6`: init succeeds with session id "U". -/
def stage1C6 : Except String Unit × S3StreamingUpload × World :=
  S3StreamingUpload.init cfgW (S3StreamingUpload.create cfgW "k" (-1)) wC6start

/-- Concrete run over `envC6`: a three-byte append, no flush yet. -/
def stage2C6 : Except String Unit × S3StreamingUpload × World :=
  S3StreamingUpload.upload_part cfgW stage1C6.2.1 stage1C6.2.2 0 [1, 2, 3]

/-- Concrete run over `envC6`: complete flushes the final part, then the
remote completion call fails, leaving the instance Failed with session "U". -/
def stage3C6 : Except String String × S3StreamingUpload × World :=
  S3StreamingUpload.complete cfgW stage2C6.2.1 stage2C6.2.2

/-- Concrete run over `envOk`: a one-byte append after `initW`. -/
def stage2C10 : Except String Unit × S3StreamingUpload × World :=
  S3StreamingUpload.upload_part cfgW initW.2.1 initW.2.2 0 [1]

/-- Concrete run over `envOk`: a successful completion, ending Completed. -/
def stage3C10 : Except String String × S3StreamingUpload × World :=
  S3StreamingUpload.complete cfgW stage2C10.2.1 stage2C10.2.2

/-- An environment that fails every call. -/
def envErr : Nat → RemoteCall → RemoteResult := fun _ _ => RemoteResult.err "x"

/-- A fresh world over `envErr`. -/
def wErr : World := { env := envErr, calls := [] }

/-- Exactly one minimum part size worth of zero bytes. -/
def bigData : List UInt8 := List.replicate MIN_PART_SIZE 0

/-- An in-progress upload holding `bigData` in its pending buffer. -/
def uBig : S3StreamingUpload :=
  { impl := { full_key := "k", upload_id := "U", buffered_data := bigData }
    s3_key := "k"
    expected_size := -1
    status := UploadStatus.InProgress }

/-- `uBig`'s impl state after appending an empty chunk. -/
def stQ : ImplState :=
  { full_key := "k", upload_id := "U", completed_parts := [], buffered_data := bigData ++ [] }

/-- The world after the one failing part-upload call out of `stQ`. -/
def wPush : World := { env := envErr, calls := [flushCall cfgW stQ MIN_PART_SIZE] }

theorem MIN_pos : 0 < MIN_PART_SIZE := by decide

theorem callRemote_env (w : World) (c : RemoteCall) : (callRemote w c).2.env = w.env := rfl

theorem callRemote_calls (w : World) (c : RemoteCall) :
    (callRemote w c).2.calls = w.calls ++ [c] := rfl

theorem flushAt_err (cfg : S3Config) (st : ImplState) (w : World) (ps : Nat)
    (m : String) (st2 : ImplState) (w2 : World)
    (h : ImplState.flushAt cfg st w ps = (Except.error m, st2, w2)) :
    st2 = st ∧ w2.env = w.env ∧ w2.calls = w.calls ++ [flushCall cfg st ps] ∧ ps ≠ 0 := by
  unfold ImplState.flushAt at h
  split at h
  · simp at h
  · rename_i hps
    simp only [callRemote] at h
    split at h
    · injection h with h1 h23
      injection h23 with h2 h3
      subst h2
      subst h3
      exact ⟨rfl, rfl, rfl, hps⟩
    · simp at h

theorem flushAt_ok (cfg : S3Config) (st : ImplState) (w : World) (ps : Nat)
    (r : Unit) (st2 : ImplState) (w2 : World)
    (h : ImplState.flushAt cfg st w ps = (Except.ok r, st2, w2)) :
    (ps = 0 ∧ st2 = st ∧ w2 = w) ∨
    (ps ≠ 0 ∧ ∃ tag,
      w.env w.calls.length (flushCall cfg st ps) = RemoteResult.ok tag ∧
      st2 = { st with
        completed_parts :=
          st.completed_parts ++ [{ part_number := st.completed_parts.length + 1, etag := tag }],
        buffered_data := st.buffered_data.drop ps } ∧
      w2.env = w.env ∧ w2.calls = w.calls ++ [flushCall cfg st ps]) := by
  unfold ImplState.flushAt at h
  split at h
  · rename_i hps
    left
    injection h with h1 h23
    injection h23 with h2 h3
    exact ⟨hps, h2.symm, h3.symm⟩
  · rename_i hps
    right
    simp only [callRemote] at h
    split at h
    · simp at h
    · rename_i tag heq
      injection h with h1 h23
      injection h23 with h2 h3
      exact ⟨hps, tag, heq, h2.symm, by rw [← h3], by rw [← h3]; rfl⟩

theorem flush_false_small (cfg : S3Config) (st : ImplState) (w : World)
    (h : st.buffered_data.length < MIN_PART_SIZE) :
    ImplState.flush_buffer_part cfg st w false = (Except.ok (), st, w) := by
  unfold ImplState.flush_buffer_part
  split
  · rfl
  · rw [if_neg (by simp), if_neg (by omega)]

theorem flush_false_big (cfg : S3Config) (st : ImplState) (w : World)
    (h : MIN_PART_SIZE ≤ st.buffered_data.length) :
    ImplState.flush_buffer_part cfg st w false = ImplState.flushAt cfg st w MIN_PART_SIZE := by
  have hnil : st.buffered_data ≠ [] := by
    intro hnil
    rw [hnil] at h
    exact absurd h (by decide)
  unfold ImplState.flush_buffer_part
  rw [if_neg (by simp [List.isEmpty_iff, hnil]), if_neg (by simp), if_pos h]

theorem flush_true_eq (cfg : S3Config) (st : ImplState) (w : World) :
    ImplState.flush_buffer_part cfg st w true =
      if st.buffered_data.isEmpty then (Except.ok (), st, w)
      else ImplState.flushAt cfg st w st.buffered_data.length := by
  unfold ImplState.flush_buffer_part
  split
  · rfl
  · simp

theorem loopFuel_shape (cfg : S3Config) (f : Nat) : ∀ (st : ImplState) (w : World)
    (r : Except String Unit) (st2 : ImplState) (w2 : World),
    implUploadLoopFuel cfg f st w = (r, st2, w2) →
    ∃ new : List CompletedPart,
      st2.completed_parts = st.completed_parts ++ new ∧
      st2.buffered_data = st.buffered_data.drop (new.length * MIN_PART_SIZE) ∧
      st2.upload_id = st.upload_id ∧ st2.full_key = st.full_key ∧
      w2.env = w.env ∧ ∃ t, w2.calls = w.calls ++ t := by
  induction f with
  | zero =>
    intro st w r st2 w2 h
    simp only [implUploadLoopFuel] at h
    injection h with h1 h23
    injection h23 with h2 h3
    subst h2
    subst h3
    exact ⟨[], by simp, by simp, rfl, rfl, rfl, [], by simp⟩
  | succ f ih =>
    intro st w r st2 w2 h
    simp only [implUploadLoopFuel] at h
    split at h
    · rename_i hguard
      split at h
      · rename_i m stE wE heq
        rw [flush_false_big cfg st w hguard] at heq
        obtain ⟨he1, he2, he3, -⟩ := flushAt_err cfg st w MIN_PART_SIZE m stE wE heq
        injection h with h1 h23
        injection h23 with h2 h3
        subst h2
        subst h3
        exact ⟨[], by simp [he1], by simp [he1], by simp [he1], by simp [he1],
          by simp [he2], [flushCall cfg st MIN_PART_SIZE], he3⟩
      · rename_i u stO wO heq
        rw [flush_false_big cfg st w hguard] at heq
        rcases flushAt_ok cfg st w MIN_PART_SIZE u stO wO heq with ⟨hz, -⟩ | ⟨-, tag, -, hst, henv, hcalls⟩
        · exact absurd hz (by decide)
        · obtain ⟨new2, hp2, hb2, hid2, hk2, henv2, t2, hcalls2⟩ := ih stO wO r st2 w2 h
          refine ⟨{ part_number := st.completed_parts.length + 1, etag := tag } :: new2,
            ?_, ?_, ?_, ?_, ?_, flushCall cfg st MIN_PART_SIZE :: t2, ?_⟩
          · rw [hp2, hst]
            simp
          · rw [hb2, hst]
            simp only [List.drop_drop, List.length_cons]
            rw [Nat.succ_mul, Nat.add_comm]
          · rw [hid2, hst]
          · rw [hk2, hst]
          · rw [henv2, henv]
          · rw [hcalls2, hcalls]
            simp
    · injection h with h1 h23
      injection h23 with h2 h3
      subst h2
      subst h3
      exact ⟨[], by simp, by simp, rfl, rfl, rfl, [], by simp⟩

theorem loopFuel_ok_small (cfg : S3Config) (f : Nat) : ∀ (st : ImplState) (w : World)
    (r : Unit) (st2 : ImplState) (w2 : World),
    st.buffered_data.length ≤ f →
    implUploadLoopFuel cfg f st w = (Except.ok r, st2, w2) →
    st2.buffered_data.length < MIN_PART_SIZE := by
  induction f with
  | zero =>
    intro st w r st2 w2 hle h
    simp only [implUploadLoopFuel] at h
    injection h with h1 h23
    injection h23 with h2 h3
    subst h2
    have : st.buffered_data.length = 0 := by omega
    rw [this]
    exact MIN_pos
  | succ f ih =>
    intro st w r st2 w2 hle h
    simp only [implUploadLoopFuel] at h
    split at h
    · rename_i hguard
      split at h
      · simp at h
      · rename_i u stO wO heq
        rw [flush_false_big cfg st w hguard] at heq
        rcases flushAt_ok cfg st w MIN_PART_SIZE u stO wO heq with ⟨hz, -⟩ | ⟨-, tag, -, hst, -, -⟩
        · exact absurd hz (by decide)
        · refine ih stO wO r st2 w2 ?_ h
          rw [hst]
          simp only [List.length_drop]
          have : 0 < MIN_PART_SIZE := MIN_pos
          omega
    · rename_i hguard
      injection h with h1 h23
      injection h23 with h2 h3
      subst h2
      omega

theorem impl_upload_shape (cfg : S3Config) (st : ImplState) (w : World) (off : Int)
    (data : List UInt8) (r : Except String Unit) (st2 : ImplState) (w2 : World)
    (h : ImplState.upload_part cfg st w off data = (r, st2, w2)) :
    ∃ new : List CompletedPart,
      st2.completed_parts = st.completed_parts ++ new ∧
      st2.buffered_data = (st.buffered_data ++ data).drop (new.length * MIN_PART_SIZE) ∧
      st2.upload_id = st.upload_id ∧ st2.full_key = st.full_key ∧
      w2.env = w.env ∧ ∃ t, w2.calls = w.calls ++ t :=
  loopFuel_shape cfg (st.buffered_data ++ data).length
    { st with buffered_data := st.buffered_data ++ data } w r st2 w2 h

theorem impl_upload_ok_small (cfg : S3Config) (st : ImplState) (w : World) (off : Int)
    (data : List UInt8) (r : Unit) (st2 : ImplState) (w2 : World)
    (h : ImplState.upload_part cfg st w off data = (Except.ok r, st2, w2)) :
    st2.buffered_data.length < MIN_PART_SIZE :=
  loopFuel_ok_small cfg (st.buffered_data ++ data).length
    { st with buffered_data := st.buffered_data ++ data } w r st2 w2 (le_refl _) h

theorem init_ok_state (cfg : S3Config) (u : S3StreamingUpload) (w : World)
    (r : Unit) (u2 : S3StreamingUpload) (w2 : World)
    (h : S3StreamingUpload.init cfg u w = (Except.ok r, u2, w2)) :
    u.status = UploadStatus.NotStarted ∧
    u2.status = UploadStatus.InProgress ∧
    u2.uploaded_bytes = u.uploaded_bytes ∧
    u2.impl.full_key = u.impl.full_key ∧
    u2.impl.completed_parts = u.impl.completed_parts ∧
    u2.impl.buffered_data = u.impl.buffered_data ∧
    (∃ s, w.env w.calls.length (RemoteCall.createMultipartUpload cfg.bucket u.impl.full_key) =
            RemoteResult.ok s ∧ u2.impl.upload_id = s) ∧
    w2.env = w.env ∧
    w2.calls = w.calls ++ [RemoteCall.createMultipartUpload cfg.bucket u.impl.full_key] := by
  unfold S3StreamingUpload.init at h
  split at h
  · simp at h
  · rename_i hng
    split at h
    · simp at h
    · rename_i u0 st w1 heq
      injection h with h1 h23
      injection h23 with h2 h3
      subst h2
      subst h3
      simp only [ImplState.init, callRemote] at heq
      split at heq
      · simp at heq
      · rename_i s hs
        injection heq with g1 g23
        injection g23 with g2 g3
        subst g2
        subst g3
        refine ⟨by simpa using hng, rfl, rfl, rfl, rfl, rfl, ⟨s, hs, rfl⟩, rfl, rfl⟩

theorem upload_ok_bytes (cfg : S3Config) (u : S3StreamingUpload) (w : World) (off : Int)
    (data : List UInt8) (r : Unit) (u2 : S3StreamingUpload) (w2 : World)
    (h : S3StreamingUpload.upload_part cfg u w off data = (Except.ok r, u2, w2)) :
    u2.uploaded_bytes = u.uploaded_bytes + data.length := by
  unfold S3StreamingUpload.upload_part at h
  split at h
  · simp at h
  · split at h
    · simp at h
    · injection h with h1 h23
      injection h23 with h2 h3
      subst h2
      rfl

theorem implAbort_cases (cfg : S3Config) (st : ImplState) (w : World)
    (r : Except String Unit) (st2 : ImplState) (w2 : World)
    (h : ImplState.abort cfg st w = (r, st2, w2)) :
    r = Except.ok () ∧ w2.env = w.env ∧
    ((st.upload_id = "" ∧ st2 = st ∧ w2 = w) ∨
     (st.upload_id ≠ "" ∧
      st2 = { st with upload_id := "", completed_parts := [], buffered_data := [] } ∧
      w2.calls = w.calls ++
        [RemoteCall.abortMultipartUpload cfg.bucket st.full_key st.upload_id])) := by
  unfold ImplState.abort at h
  split at h
  · rename_i hemp
    injection h with h1 h23
    injection h23 with h2 h3
    subst h2
    subst h3
    exact ⟨h1.symm, rfl, Or.inl ⟨(String.isEmpty_iff st.upload_id).mp hemp, rfl, rfl⟩⟩
  · rename_i hemp
    simp only [callRemote] at h
    injection h with h1 h23
    injection h23 with h2 h3
    subst h2
    subst h3
    refine ⟨h1.symm, rfl, Or.inr ⟨?_, rfl, rfl⟩⟩
    intro hcon
    exact hemp ((String.isEmpty_iff st.upload_id).mpr hcon)

theorem runUploads_ok_bytes (cfg : S3Config) (chunks : List (Int × List UInt8)) :
    ∀ (u : S3StreamingUpload) (w : World) (r : Unit) (u2 : S3StreamingUpload) (w2 : World),
    runUploads cfg u w chunks = (Except.ok r, u2, w2) →
    u2.uploaded_bytes = u.uploaded_bytes + (chunks.map (fun c => c.2.length)).sum := by
  induction chunks with
  | nil =>
    intro u w r u2 w2 h
    simp only [runUploads] at h
    injection h with h1 h23
    injection h23 with h2 h3
    subst h2
    simp
  | cons c rest ih =>
    intro u w r u2 w2 h
    simp only [runUploads] at h
    split at h
    · rename_i u1 w1 heq
      have hb := upload_ok_bytes cfg u w c.1 c.2 _ u1 w1 heq
      have := ih u1 w1 r u2 w2 h
      rw [this, hb]
      simp
      omega
    · simp at h

/-- Claim C3: on every successful `upload_part`, the resulting pending buffer
is strictly below `MIN_PART_SIZE`; the call appended the data and then carved
off some number of exactly-`MIN_PART_SIZE` prefixes, one recorded part each,
so a sub-threshold remainder is never flushed by `upload_part`. -/
theorem claim_C3 (cfg : S3Config) (u : S3StreamingUpload) (w : World) (off : Int)
    (data : List UInt8) (r : Unit) (u2 : S3StreamingUpload) (w2 : World)
    (h : S3StreamingUpload.upload_part cfg u w off data = (Except.ok r, u2, w2)) :
    u2.impl.buffered_data.length < MIN_PART_SIZE ∧
    ∃ new : List CompletedPart,
      u2.impl.completed_parts = u.impl.completed_parts ++ new ∧
      u2.impl.buffered_data =
        (u.impl.buffered_data ++ data).drop (new.length * MIN_PART_SIZE) := by
  unfold S3StreamingUpload.upload_part at h
  split at h
  · simp at h
  · split at h
    · simp at h
    · rename_i u0 st w1 heq
      injection h with h1 h23
      injection h23 with h2 h3
      subst h2
      constructor
      · exact impl_upload_ok_small cfg u.impl w off data u0 st w1 heq
      · obtain ⟨new, hp, hb, -⟩ := impl_upload_shape cfg u.impl w off data _ st w1 heq
        exact ⟨new, hp, hb⟩

theorem claim_C3_witness :
    (S3StreamingUpload.upload_part cfgW uIP wW 0 [1, 2, 3]).2.1.impl.buffered_data.length <
      MIN_PART_SIZE :=
  (claim_C3 cfgW uIP wW 0 [1, 2, 3] ()
    (S3StreamingUpload.upload_part cfgW uIP wW 0 [1, 2, 3]).2.1
    (S3StreamingUpload.upload_part cfgW uIP wW 0 [1, 2, 3]).2.2 rfl).1

/-- Claim C5: calling `upload_part` or `complete` on an instance that is not
InProgress (NotStarted, Completed, Aborted or Failed) returns the local
"Upload not in progress" error and leaves the instance and the world — so in
particular the remote-call trace — completely unchanged. -/
theorem claim_C5 (cfg : S3Config) (u : S3StreamingUpload) (w : World) (off : Int)
    (data : List UInt8) (h : u.status ≠ UploadStatus.InProgress) :
    S3StreamingUpload.upload_part cfg u w off data =
      (Except.error "Upload not in progress", u, w) ∧
    S3StreamingUpload.complete cfg u w = (Except.error "Upload not in progress", u, w) := by
  unfold S3StreamingUpload.upload_part S3StreamingUpload.complete
  rw [if_pos h, if_pos h]
  exact ⟨rfl, rfl⟩

theorem claim_C5_witness :
    S3StreamingUpload.upload_part cfgW uDone wW 0 [] =
      (Except.error "Upload not in progress", uDone, wW) ∧
    S3StreamingUpload.complete cfgW uDone wW =
      (Except.error "Upload not in progress", uDone, wW) :=
  claim_C5 cfgW uDone wW 0 [] (by decide)

/-- Claim C7: starting from a fresh instance whose `init` succeeded, after any
list of `upload_part` calls that all succeed, the uploaded-byte counter equals
exactly the total length of the data passed, independent of how the internal
flushing went. -/
theorem claim_C7 (cfg : S3Config) (key : String) (sz : Int) (w0 : World)
    (r1 : Unit) (u1 : S3StreamingUpload) (w1 : World)
    (chunks : List (Int × List UInt8)) (r2 : Unit) (u2 : S3StreamingUpload) (w2 : World)
    (hinit : S3StreamingUpload.init cfg (S3StreamingUpload.create cfg key sz) w0 =
      (Except.ok r1, u1, w1))
    (hrun : runUploads cfg u1 w1 chunks = (Except.ok r2, u2, w2)) :
    u2.uploaded_bytes = (chunks.map (fun c => c.2.length)).sum := by
  have h0 : u1.uploaded_bytes = 0 :=
    (init_ok_state cfg (S3StreamingUpload.create cfg key sz) w0 r1 u1 w1 hinit).2.2.1
  have := runUploads_ok_bytes cfg chunks u1 w1 r2 u2 w2 hrun
  rw [this, h0, Nat.zero_add]

theorem claim_C7_witness :
    runW.2.1.uploaded_bytes = (chunksW.map (fun c => c.2.length)).sum :=
  claim_C7 cfgW "k" (-1) wW () initW.2.1 initW.2.2 chunksW () runW.2.1 runW.2.2 rfl rfl

/-- Claim C1: after a successful `init` on a fresh instance (with the session
id the store returned nonempty), a `complete` with zero bytes ever appended
returns the "No data was uploaded" error, leaves the instance Failed with no
parts recorded, and issues exactly one remote abort of the session before
returning. -/
theorem claim_C1 (cfg : S3Config) (key : String) (sz : Int) (w0 : World)
    (r1 : Unit) (u1 : S3StreamingUpload) (w1 : World)
    (hinit : S3StreamingUpload.init cfg (S3StreamingUpload.create cfg key sz) w0 =
      (Except.ok r1, u1, w1))
    (hid : u1.impl.upload_id ≠ "") :
    ∃ u2 w2,
      S3StreamingUpload.complete cfg u1 w1 = (Except.error "No data was uploaded", u2, w2) ∧
      u2.status = UploadStatus.Failed ∧
      u2.impl.completed_parts = [] ∧
      u2.impl.buffered_data = [] ∧
      u2.impl.upload_id = "" ∧
      w2.env = w1.env ∧
      w2.calls = w1.calls ++
        [RemoteCall.abortMultipartUpload cfg.bucket u1.impl.full_key u1.impl.upload_id] := by
  obtain ⟨-, hst, -, -, hparts, hbuf, -, -, -⟩ :=
    init_ok_state cfg (S3StreamingUpload.create cfg key sz) w0 r1 u1 w1 hinit
  have hp : u1.impl.completed_parts = [] := hparts
  have hb : u1.impl.buffered_data = [] := hbuf
  have hidb : u1.impl.upload_id.isEmpty = false := by
    cases hb2 : u1.impl.upload_id.isEmpty
    · rfl
    · exact absurd ((String.isEmpty_iff _).mp hb2) hid
  have hcomp : ImplState.complete cfg u1.impl w1 =
      (Except.error "No data was uploaded",
       { u1.impl with upload_id := "", completed_parts := [], buffered_data := [] },
       { w1 with calls := w1.calls ++
          [RemoteCall.abortMultipartUpload cfg.bucket u1.impl.full_key u1.impl.upload_id] }) := by
    unfold ImplState.complete
    rw [flush_true_eq, hb]
    simp only [List.isEmpty_nil, if_true, hp, ImplState.abort, hidb, callRemote,
      Bool.false_eq_true, if_false]
  have hstn : ¬ (u1.status ≠ UploadStatus.InProgress) := by simp [hst]
  refine ⟨{ u1 with
      impl := { u1.impl with upload_id := "", completed_parts := [], buffered_data := [] },
      status := UploadStatus.Failed },
    { w1 with calls := w1.calls ++
      [RemoteCall.abortMultipartUpload cfg.bucket u1.impl.full_key u1.impl.upload_id] },
    ?_, rfl, rfl, rfl, rfl, rfl, rfl⟩
  unfold S3StreamingUpload.complete
  rw [if_neg hstn, hcomp]

theorem claim_C1_witness :
    (S3StreamingUpload.complete cfgW initW.2.1 initW.2.2).2.1.status = UploadStatus.Failed := by
  obtain ⟨u2, w2, heq, hst, -⟩ :=
    claim_C1 cfgW "k" (-1) wW () initW.2.1 initW.2.2 rfl (by decide)
  rw [heq]
  exact hst

theorem tagsAcked_mono (st : ImplState) (w w2 : World) (t : List RemoteCall)
    (henv : w2.env = w.env) (hc : w2.calls = w.calls ++ t) (h : TagsAcked st w) :
    TagsAcked st w2 := by
  intro p hp
  obtain ⟨pre, suf, b, k, uid, body, hcalls, hresp⟩ := h p hp
  refine ⟨pre, suf ++ t, b, k, uid, body, ?_, ?_⟩
  · rw [hc, hcalls]
    simp
  · rw [henv]
    exact hresp

theorem implInv_carry (st st2 : ImplState) (w w2 : World) (t : List RemoteCall)
    (hparts : st2.completed_parts = st.completed_parts)
    (henv : w2.env = w.env) (hc : w2.calls = w.calls ++ t) (hI : ImplInv st w) :
    ImplInv st2 w2 := by
  constructor
  · unfold PartsContiguous
    rw [hparts]
    exact hI.1
  · intro p hp
    rw [hparts] at hp
    exact tagsAcked_mono st w w2 t henv hc hI.2 p hp

theorem implInv_cleared (st : ImplState) (w : World) (h : st.completed_parts = []) :
    ImplInv st w := by
  constructor
  · unfold PartsContiguous
    rw [h]
    rfl
  · intro p hp
    rw [h] at hp
    simp at hp

theorem implInv_flushAt (cfg : S3Config) (st : ImplState) (w : World) (ps : Nat)
    (r : Except String Unit) (st2 : ImplState) (w2 : World)
    (h : ImplState.flushAt cfg st w ps = (r, st2, w2)) (hI : ImplInv st w) :
    ImplInv st2 w2 := by
  cases r with
  | error m =>
    obtain ⟨he1, he2, he3, -⟩ := flushAt_err cfg st w ps m st2 w2 h
    exact implInv_carry st st2 w w2 [flushCall cfg st ps] (by rw [he1]) he2 he3 hI
  | ok u =>
    obtain ⟨hI1, hI2⟩ := hI
    rcases flushAt_ok cfg st w ps u st2 w2 h with ⟨-, h2, h3⟩ | ⟨-, tag, hresp, hst, henv, hcalls⟩
    · subst h2
      subst h3
      exact ⟨hI1, hI2⟩
    · subst hst
      constructor
      · unfold PartsContiguous at hI1 ⊢
        simp only [List.map_append, List.length_append, List.map_cons, List.map_nil,
          List.length_cons, List.length_nil]
        rw [hI1, List.range'_1_concat]
        simp [Nat.add_comm]
      · intro p hp
        rcases List.mem_append.mp hp with hold | hnew
        · exact tagsAcked_mono st w w2 [flushCall cfg st ps] henv hcalls hI2 p hold
        · have hpv : p = { part_number := st.completed_parts.length + 1, etag := tag } := by
            simpa using hnew
          subst hpv
          refine ⟨w.calls, [], cfg.bucket, st.full_key, st.upload_id,
            st.buffered_data.take ps, ?_, ?_⟩
          · rw [hcalls]
            rfl
          · rw [henv]
            exact hresp

theorem implInv_flush (cfg : S3Config) (st : ImplState) (w : World) (fin : Bool)
    (r : Except String Unit) (st2 : ImplState) (w2 : World)
    (h : ImplState.flush_buffer_part cfg st w fin = (r, st2, w2)) (hI : ImplInv st w) :
    ImplInv st2 w2 := by
  unfold ImplState.flush_buffer_part at h
  split at h
  · injection h with h1 h23
    injection h23 with h2 h3
    subst h2
    subst h3
    exact hI
  · split at h
    · exact implInv_flushAt cfg st w st.buffered_data.length r st2 w2 h hI
    · split at h
      · exact implInv_flushAt cfg st w MIN_PART_SIZE r st2 w2 h hI
      · injection h with h1 h23
        injection h23 with h2 h3
        subst h2
        subst h3
        exact hI

theorem implInv_loopFuel (cfg : S3Config) (f : Nat) : ∀ (st : ImplState) (w : World)
    (r : Except String Unit) (st2 : ImplState) (w2 : World),
    implUploadLoopFuel cfg f st w = (r, st2, w2) → ImplInv st w → ImplInv st2 w2 := by
  induction f with
  | zero =>
    intro st w r st2 w2 h hI
    simp only [implUploadLoopFuel] at h
    injection h with h1 h23
    injection h23 with h2 h3
    subst h2
    subst h3
    exact hI
  | succ f ih =>
    intro st w r st2 w2 h hI
    simp only [implUploadLoopFuel] at h
    split at h
    · split at h
      · rename_i m stE wE heq
        injection h with h1 h23
        injection h23 with h2 h3
        subst h2
        subst h3
        exact implInv_flush cfg st w false _ stE wE heq hI
      · rename_i u stO wO heq
        exact ih stO wO r st2 w2 h (implInv_flush cfg st w false _ stO wO heq hI)
    · injection h with h1 h23
      injection h23 with h2 h3
      subst h2
      subst h3
      exact hI

theorem implInit_cases (cfg : S3Config) (st : ImplState) (w : World)
    (r : Except String Unit) (st2 : ImplState) (w2 : World)
    (h : ImplState.init cfg st w = (r, st2, w2)) :
    w2.env = w.env ∧
    w2.calls = w.calls ++ [RemoteCall.createMultipartUpload cfg.bucket st.full_key] ∧
    st2.completed_parts = st.completed_parts ∧
    st2.buffered_data = st.buffered_data ∧
    st2.full_key = st.full_key ∧
    ((∃ m, r = Except.error m ∧ st2 = st) ∨
     (∃ s, r = Except.ok () ∧ st2 = { st with upload_id := s } ∧
        w.env w.calls.length (RemoteCall.createMultipartUpload cfg.bucket st.full_key) =
          RemoteResult.ok s)) := by
  unfold ImplState.init at h
  simp only [callRemote] at h
  split at h
  · rename_i m hm
    injection h with h1 h23
    injection h23 with h2 h3
    subst h2
    subst h3
    exact ⟨rfl, rfl, rfl, rfl, rfl,
      Or.inl ⟨"Failed to create multipart upload: " ++ m, h1.symm, rfl⟩⟩
  · rename_i s hs
    injection h with h1 h23
    injection h23 with h2 h3
    subst h2
    subst h3
    exact ⟨rfl, rfl, rfl, rfl, rfl, Or.inr ⟨s, h1.symm, rfl, hs⟩⟩

theorem implComplete_inv (cfg : S3Config) (st : ImplState) (w : World)
    (r : Except String String) (st2 : ImplState) (w2 : World)
    (h : ImplState.complete cfg st w = (r, st2, w2)) (hI : ImplInv st w) :
    ImplInv st2 w2 := by
  unfold ImplState.complete at h
  split at h
  · rename_i m stF wF heq
    injection h with h1 h23
    injection h23 with h2 h3
    subst h2
    subst h3
    exact implInv_flush cfg st w true _ stF wF heq hI
  · rename_i u0 stF wF heq
    have hIF : ImplInv stF wF := implInv_flush cfg st w true _ stF wF heq hI
    split at h
    · split at h
      rename_i a stA wA heqA
      injection h with h1 h23
      injection h23 with h2 h3
      subst h2
      subst h3
      obtain ⟨-, henvA, hd⟩ := implAbort_cases cfg stF wF a stA wA heqA
      rcases hd with ⟨-, hsa, hwa⟩ | ⟨-, hsa, hca⟩
      · subst hsa
        subst hwa
        exact hIF
      · subst hsa
        exact implInv_cleared _ _ rfl
    · simp only [callRemote] at h
      split at h
      · injection h with h1 h23
        injection h23 with h2 h3
        subst h2
        subst h3
        exact implInv_carry stF stF wF _ _ rfl rfl rfl hIF
      · injection h with h1 h23
        injection h23 with h2 h3
        subst h2
        subst h3
        exact implInv_carry stF stF wF _ _ rfl rfl rfl hIF

theorem stInv_init (cfg : S3Config) (u : S3StreamingUpload) (w : World)
    (r : Except String Unit) (u2 : S3StreamingUpload) (w2 : World)
    (h : S3StreamingUpload.init cfg u w = (r, u2, w2)) (hI : ImplInv u.impl w) :
    ImplInv u2.impl w2 := by
  unfold S3StreamingUpload.init at h
  split at h
  · injection h with h1 h23
    injection h23 with h2 h3
    subst h2
    subst h3
    exact hI
  · split at h
    · rename_i m st w1 heq
      injection h with h1 h23
      injection h23 with h2 h3
      subst h2
      subst h3
      obtain ⟨he, hc, hp, -⟩ := implInit_cases cfg u.impl w _ st w1 heq
      exact implInv_carry u.impl st w w1 _ hp he hc hI
    · rename_i u0 st w1 heq
      injection h with h1 h23
      injection h23 with h2 h3
      subst h2
      subst h3
      obtain ⟨he, hc, hp, -⟩ := implInit_cases cfg u.impl w _ st w1 heq
      exact implInv_carry u.impl st w w1 _ hp he hc hI

theorem stInv_upload (cfg : S3Config) (u : S3StreamingUpload) (w : World) (off : Int)
    (data : List UInt8) (r : Except String Unit) (u2 : S3StreamingUpload) (w2 : World)
    (h : S3StreamingUpload.upload_part cfg u w off data = (r, u2, w2))
    (hI : ImplInv u.impl w) : ImplInv u2.impl w2 := by
  unfold S3StreamingUpload.upload_part at h
  split at h
  · injection h with h1 h23
    injection h23 with h2 h3
    subst h2
    subst h3
    exact hI
  · split at h
    · rename_i m st w1 heq
      injection h with h1 h23
      injection h23 with h2 h3
      subst h2
      subst h3
      exact implInv_loopFuel cfg _ _ w _ st w1 heq hI
    · rename_i u0 st w1 heq
      injection h with h1 h23
      injection h23 with h2 h3
      subst h2
      subst h3
      exact implInv_loopFuel cfg _ _ w _ st w1 heq hI

theorem stInv_complete (cfg : S3Config) (u : S3StreamingUpload) (w : World)
    (r : Except String String) (u2 : S3StreamingUpload) (w2 : World)
    (h : S3StreamingUpload.complete cfg u w = (r, u2, w2)) (hI : ImplInv u.impl w) :
    ImplInv u2.impl w2 := by
  unfold S3StreamingUpload.complete at h
  split at h
  · injection h with h1 h23
    injection h23 with h2 h3
    subst h2
    subst h3
    exact hI
  · split at h
    · rename_i m st w1 heq
      injection h with h1 h23
      injection h23 with h2 h3
      subst h2
      subst h3
      exact implComplete_inv cfg u.impl w _ st w1 heq hI
    · rename_i k st w1 heq
      injection h with h1 h23
      injection h23 with h2 h3
      subst h2
      subst h3
      exact implComplete_inv cfg u.impl w _ st w1 heq hI

theorem stInv_abort (cfg : S3Config) (u : S3StreamingUpload) (w : World)
    (r : Except String Unit) (u2 : S3StreamingUpload) (w2 : World)
    (h : S3StreamingUpload.abort cfg u w = (r, u2, w2)) (hI : ImplInv u.impl w) :
    ImplInv u2.impl w2 := by
  unfold S3StreamingUpload.abort at h
  split at h
  · injection h with h1 h23
    injection h23 with h2 h3
    subst h2
    subst h3
    exact hI
  · split at h
    rename_i a st w1 heq
    injection h with h1 h23
    injection h23 with h2 h3
    subst h2
    subst h3
    obtain ⟨-, henv, hd⟩ := implAbort_cases cfg u.impl w a st w1 heq
    rcases hd with ⟨-, hsa, hwa⟩ | ⟨-, hsa, hca⟩
    · subst hsa
      subst hwa
      exact hI
    · subst hsa
      exact implInv_cleared _ _ rfl

theorem stInv_destroy (cfg : S3Config) (u : S3StreamingUpload) (w : World)
    (u2 : S3StreamingUpload) (w2 : World)
    (h : S3StreamingUpload.destroy cfg u w = (u2, w2)) (hI : ImplInv u.impl w) :
    ImplInv u2.impl w2 := by
  unfold S3StreamingUpload.destroy at h
  split at h
  · split at h
    rename_i a ua wa heq
    injection h with h1 h2
    subst h1
    subst h2
    exact stInv_abort cfg u w a ua wa heq hI
  · injection h with h1 h2
    subst h1
    subst h2
    exact hI

/-- Claim C2: at every state an external caller can reach, the recorded part
numbers are exactly the contiguous sequence 1..N in the order the parts were
flushed, and every recorded part's tag stems from an uploadPart call that the
remote store acknowledged with exactly that tag. -/
theorem claim_C2 (cfg : S3Config) (u : S3StreamingUpload) (w : World)
    (h : Reachable cfg u w) : PartsContiguous u.impl ∧ TagsAcked u.impl w := by
  induction h with
  | start key sz w => exact implInv_cleared _ _ rfl
  | step_init hr heq ih => exact stInv_init cfg _ _ _ _ _ heq ih
  | step_upload hr heq ih => exact stInv_upload cfg _ _ _ _ _ _ _ heq ih
  | step_complete hr heq ih => exact stInv_complete cfg _ _ _ _ _ heq ih
  | step_abort hr heq ih => exact stInv_abort cfg _ _ _ _ _ heq ih
  | step_destroy hr heq ih => exact stInv_destroy cfg _ _ _ _ heq ih

theorem claim_C2_witness :
    PartsContiguous (S3StreamingUpload.create cfgW "k" 0).impl ∧
    TagsAcked (S3StreamingUpload.create cfgW "k" 0).impl wW :=
  claim_C2 cfgW (S3StreamingUpload.create cfgW "k" 0) wW (Reachable.start "k" 0 wW)

theorem flushAt_id (cfg : S3Config) (st : ImplState) (w : World) (ps : Nat)
    (r : Except String Unit) (st2 : ImplState) (w2 : World)
    (h : ImplState.flushAt cfg st w ps = (r, st2, w2)) :
    st2.upload_id = st.upload_id ∧ w2.env = w.env := by
  cases r with
  | error m =>
    obtain ⟨he1, he2, -⟩ := flushAt_err cfg st w ps m st2 w2 h
    rw [he1]
    exact ⟨rfl, he2⟩
  | ok u =>
    rcases flushAt_ok cfg st w ps u st2 w2 h with ⟨-, h2, h3⟩ | ⟨-, tag, -, hst, henv, -⟩
    · rw [h2, h3]
      exact ⟨rfl, rfl⟩
    · rw [hst]
      exact ⟨rfl, henv⟩

theorem flush_id (cfg : S3Config) (st : ImplState) (w : World) (fin : Bool)
    (r : Except String Unit) (st2 : ImplState) (w2 : World)
    (h : ImplState.flush_buffer_part cfg st w fin = (r, st2, w2)) :
    st2.upload_id = st.upload_id ∧ w2.env = w.env := by
  unfold ImplState.flush_buffer_part at h
  split at h
  · injection h with h1 h23
    injection h23 with h2 h3
    rw [← h2, ← h3]
    exact ⟨rfl, rfl⟩
  · split at h
    · exact flushAt_id cfg st w _ r st2 w2 h
    · split at h
      · exact flushAt_id cfg st w _ r st2 w2 h
      · injection h with h1 h23
        injection h23 with h2 h3
        rw [← h2, ← h3]
        exact ⟨rfl, rfl⟩

theorem implComplete_id_cases (cfg : S3Config) (st : ImplState) (w : World)
    (r : Except String String) (st2 : ImplState) (w2 : World)
    (h : ImplState.complete cfg st w = (r, st2, w2)) :
    w2.env = w.env ∧
    (st2.upload_id = st.upload_id ∨
     (st2.upload_id = "" ∧ st2.buffered_data = [] ∧ st2.completed_parts = [])) := by
  unfold ImplState.complete at h
  split at h
  · rename_i m stF wF heq
    injection h with h1 h23
    injection h23 with h2 h3
    subst h2
    subst h3
    obtain ⟨hid, henv⟩ := flush_id cfg st w true _ stF wF heq
    exact ⟨henv, Or.inl hid⟩
  · rename_i u0 stF wF heq
    obtain ⟨hidF, henvF⟩ := flush_id cfg st w true _ stF wF heq
    split at h
    · split at h
      rename_i a stA wA heqA
      injection h with h1 h23
      injection h23 with h2 h3
      subst h2
      subst h3
      obtain ⟨-, henvA, hd⟩ := implAbort_cases cfg stF wF a stA wA heqA
      rcases hd with ⟨hide, hsa, hwa⟩ | ⟨-, hsa, -⟩
      · subst hsa
        subst hwa
        exact ⟨henvF, Or.inl hidF⟩
      · subst hsa
        exact ⟨by rw [henvA, henvF], Or.inr ⟨rfl, rfl, rfl⟩⟩
    · simp only [callRemote] at h
      split at h
      · injection h with h1 h23
        injection h23 with h2 h3
        subst h2
        subst h3
        exact ⟨henvF, Or.inl hidF⟩
      · injection h with h1 h23
        injection h23 with h2 h3
        subst h2
        subst h3
        exact ⟨henvF, Or.inl hidF⟩

theorem init_env (cfg : S3Config) (u : S3StreamingUpload) (w : World)
    (r : Except String Unit) (u2 : S3StreamingUpload) (w2 : World)
    (h : S3StreamingUpload.init cfg u w = (r, u2, w2)) : w2.env = w.env := by
  unfold S3StreamingUpload.init at h
  split at h
  · injection h with h1 h23
    injection h23 with h2 h3
    rw [← h3]
  · split at h
    · rename_i m st w1 heq
      injection h with h1 h23
      injection h23 with h2 h3
      rw [← h3]
      exact (implInit_cases cfg u.impl w _ st w1 heq).1
    · rename_i u0 st w1 heq
      injection h with h1 h23
      injection h23 with h2 h3
      rw [← h3]
      exact (implInit_cases cfg u.impl w _ st w1 heq).1

theorem upload_env (cfg : S3Config) (u : S3StreamingUpload) (w : World) (off : Int)
    (data : List UInt8) (r : Except String Unit) (u2 : S3StreamingUpload) (w2 : World)
    (h : S3StreamingUpload.upload_part cfg u w off data = (r, u2, w2)) : w2.env = w.env := by
  unfold S3StreamingUpload.upload_part at h
  split at h
  · injection h with h1 h23
    injection h23 with h2 h3
    rw [← h3]
  · split at h
    · rename_i m st w1 heq
      injection h with h1 h23
      injection h23 with h2 h3
      rw [← h3]
      obtain ⟨-, -, -, -, -, henv, -⟩ := impl_upload_shape cfg u.impl w off data _ st w1 heq
      exact henv
    · rename_i u0 st w1 heq
      injection h with h1 h23
      injection h23 with h2 h3
      rw [← h3]
      obtain ⟨-, -, -, -, -, henv, -⟩ := impl_upload_shape cfg u.impl w off data _ st w1 heq
      exact henv

theorem complete_env (cfg : S3Config) (u : S3StreamingUpload) (w : World)
    (r : Except String String) (u2 : S3StreamingUpload) (w2 : World)
    (h : S3StreamingUpload.complete cfg u w = (r, u2, w2)) : w2.env = w.env := by
  unfold S3StreamingUpload.complete at h
  split at h
  · injection h with h1 h23
    injection h23 with h2 h3
    rw [← h3]
  · split at h
    · rename_i m st w1 heq
      injection h with h1 h23
      injection h23 with h2 h3
      rw [← h3]
      exact (implComplete_id_cases cfg u.impl w _ st w1 heq).1
    · rename_i k st w1 heq
      injection h with h1 h23
      injection h23 with h2 h3
      rw [← h3]
      exact (implComplete_id_cases cfg u.impl w _ st w1 heq).1

theorem abort_env (cfg : S3Config) (u : S3StreamingUpload) (w : World)
    (r : Except String Unit) (u2 : S3StreamingUpload) (w2 : World)
    (h : S3StreamingUpload.abort cfg u w = (r, u2, w2)) : w2.env = w.env := by
  unfold S3StreamingUpload.abort at h
  split at h
  · injection h with h1 h23
    injection h23 with h2 h3
    rw [← h3]
  · split at h
    rename_i a st w1 heq
    injection h with h1 h23
    injection h23 with h2 h3
    rw [← h3]
    exact (implAbort_cases cfg u.impl w a st w1 heq).2.1

theorem destroy_env (cfg : S3Config) (u : S3StreamingUpload) (w : World)
    (u2 : S3StreamingUpload) (w2 : World)
    (h : S3StreamingUpload.destroy cfg u w = (u2, w2)) : w2.env = w.env := by
  unfold S3StreamingUpload.destroy at h
  split at h
  · split at h
    rename_i a ua wa heq
    injection h with h1 h2
    rw [← h2]
    exact abort_env cfg u w a ua wa heq
  · injection h with h1 h2
    rw [← h2]

theorem sessionInv_init (cfg : S3Config) (u : S3StreamingUpload) (w : World)
    (r : Except String Unit) (u2 : S3StreamingUpload) (w2 : World)
    (h : S3StreamingUpload.init cfg u w = (r, u2, w2))
    (he : NonemptyUploadIds w.env) (hI : SessionInv u) : SessionInv u2 := by
  unfold S3StreamingUpload.init at h
  split at h
  · injection h with h1 h23
    injection h23 with h2 h3
    rw [← h2]
    exact hI
  · split at h
    · rename_i m st w1 heq
      injection h with h1 h23
      injection h23 with h2 h3
      subst h2
      rcases (implInit_cases cfg u.impl w _ st w1 heq).2.2.2.2.2 with ⟨-, -, hst⟩ | ⟨s, hok, -, -⟩
      · subst hst
        constructor
        · intro hcon
          simp at hcon
        · exact hI.2
      · simp at hok
    · rename_i u0 st w1 heq
      injection h with h1 h23
      injection h23 with h2 h3
      subst h2
      rcases (implInit_cases cfg u.impl w _ st w1 heq).2.2.2.2.2 with ⟨m, hm, -⟩ | ⟨s, -, hst, hresp⟩
      · simp at hm
      · subst hst
        have hs : s ≠ "" := he w.calls.length cfg.bucket u.impl.full_key s hresp
        constructor
        · intro hcon
          exact hs
        · intro hcon
          exact absurd hcon hs

theorem sessionInv_upload (cfg : S3Config) (u : S3StreamingUpload) (w : World) (off : Int)
    (data : List UInt8) (r : Except String Unit) (u2 : S3StreamingUpload) (w2 : World)
    (h : S3StreamingUpload.upload_part cfg u w off data = (r, u2, w2))
    (hI : SessionInv u) : SessionInv u2 := by
  unfold S3StreamingUpload.upload_part at h
  split at h
  · injection h with h1 h23
    injection h23 with h2 h3
    rw [← h2]
    exact hI
  · rename_i hng
    have hst : u.status = UploadStatus.InProgress := not_not.mp hng
    have hid : u.impl.upload_id ≠ "" := hI.1 hst
    split at h
    · rename_i m st w1 heq
      injection h with h1 h23
      injection h23 with h2 h3
      subst h2
      obtain ⟨-, -, -, hsid, -⟩ := impl_upload_shape cfg u.impl w off data _ st w1 heq
      constructor
      · intro hcon
        simp at hcon
      · intro hcon
        have hcon2 : st.upload_id = "" := hcon
        rw [hsid] at hcon2
        exact absurd hcon2 hid
    · rename_i u0 st w1 heq
      injection h with h1 h23
      injection h23 with h2 h3
      subst h2
      obtain ⟨-, -, -, hsid, -⟩ := impl_upload_shape cfg u.impl w off data _ st w1 heq
      constructor
      · intro hcon
        show st.upload_id ≠ ""
        rw [hsid]
        exact hid
      · intro hcon
        have hcon2 : st.upload_id = "" := hcon
        rw [hsid] at hcon2
        exact absurd hcon2 hid

theorem sessionInv_complete (cfg : S3Config) (u : S3StreamingUpload) (w : World)
    (r : Except String String) (u2 : S3StreamingUpload) (w2 : World)
    (h : S3StreamingUpload.complete cfg u w = (r, u2, w2))
    (hI : SessionInv u) : SessionInv u2 := by
  unfold S3StreamingUpload.complete at h
  split at h
  · injection h with h1 h23
    injection h23 with h2 h3
    rw [← h2]
    exact hI
  · rename_i hng
    have hst : u.status = UploadStatus.InProgress := not_not.mp hng
    have hid : u.impl.upload_id ≠ "" := hI.1 hst
    split at h
    · rename_i m st w1 heq
      injection h with h1 h23
      injection h23 with h2 h3
      subst h2
      rcases (implComplete_id_cases cfg u.impl w _ st w1 heq).2 with hsid | ⟨-, hbuf, hparts⟩
      · constructor
        · intro hcon
          simp at hcon
        · intro hcon
          have hcon2 : st.upload_id = "" := hcon
          rw [hsid] at hcon2
          exact absurd hcon2 hid
      · constructor
        · intro hcon
          simp at hcon
        · intro hcon
          exact ⟨hbuf, hparts⟩
    · rename_i k st w1 heq
      injection h with h1 h23
      injection h23 with h2 h3
      subst h2
      rcases (implComplete_id_cases cfg u.impl w _ st w1 heq).2 with hsid | ⟨-, hbuf, hparts⟩
      · constructor
        · intro hcon
          simp at hcon
        · intro hcon
          have hcon2 : st.upload_id = "" := hcon
          rw [hsid] at hcon2
          exact absurd hcon2 hid
      · constructor
        · intro hcon
          simp at hcon
        · intro hcon
          exact ⟨hbuf, hparts⟩

theorem sessionInv_abort (cfg : S3Config) (u : S3StreamingUpload) (w : World)
    (r : Except String Unit) (u2 : S3StreamingUpload) (w2 : World)
    (h : S3StreamingUpload.abort cfg u w = (r, u2, w2))
    (hI : SessionInv u) : SessionInv u2 := by
  unfold S3StreamingUpload.abort at h
  split at h
  · injection h with h1 h23
    injection h23 with h2 h3
    rw [← h2]
    exact hI
  · split at h
    rename_i a st w1 heq
    injection h with h1 h23
    injection h23 with h2 h3
    subst h2
    obtain ⟨-, -, hd⟩ := implAbort_cases cfg u.impl w a st w1 heq
    rcases hd with ⟨hide, hsa, -⟩ | ⟨-, hsa, -⟩
    · subst hsa
      constructor
      · intro hcon
        simp at hcon
      · intro hcon
        exact hI.2 hcon
    · subst hsa
      constructor
      · intro hcon
        simp at hcon
      · intro hcon
        exact ⟨rfl, rfl⟩

theorem sessionInv_destroy (cfg : S3Config) (u : S3StreamingUpload) (w : World)
    (u2 : S3StreamingUpload) (w2 : World)
    (h : S3StreamingUpload.destroy cfg u w = (u2, w2))
    (hI : SessionInv u) : SessionInv u2 := by
  unfold S3StreamingUpload.destroy at h
  split at h
  · split at h
    rename_i a ua wa heq
    injection h with h1 h2
    subst h1
    exact sessionInv_abort cfg u w a ua wa heq hI
  · injection h with h1 h2
    rw [← h1]
    exact hI

theorem reachable_sessionInv (cfg : S3Config) (u : S3StreamingUpload) (w : World)
    (h : Reachable cfg u w) : NonemptyUploadIds w.env → SessionInv u := by
  induction h with
  | start key sz w =>
    intro he
    constructor
    · intro hcon
      simp [S3StreamingUpload.create] at hcon
    · intro hcon
      exact ⟨rfl, rfl⟩
  | step_init hr heq ih =>
    intro he
    have henv := init_env cfg _ _ _ _ _ heq
    rw [henv] at he
    exact sessionInv_init cfg _ _ _ _ _ heq he (ih he)
  | step_upload hr heq ih =>
    intro he
    have henv := upload_env cfg _ _ _ _ _ _ _ heq
    rw [henv] at he
    exact sessionInv_upload cfg _ _ _ _ _ _ _ heq (ih he)
  | step_complete hr heq ih =>
    intro he
    have henv := complete_env cfg _ _ _ _ _ heq
    rw [henv] at he
    exact sessionInv_complete cfg _ _ _ _ _ heq (ih he)
  | step_abort hr heq ih =>
    intro he
    have henv := abort_env cfg _ _ _ _ _ heq
    rw [henv] at he
    exact sessionInv_abort cfg _ _ _ _ _ heq (ih he)
  | step_destroy hr heq ih =>
    intro he
    have henv := destroy_env cfg _ _ _ _ heq
    rw [henv] at he
    exact sessionInv_destroy cfg _ _ _ _ heq (ih he)

/-- Claim C4: `abort` is idempotent.  On a Completed or Aborted instance it
returns success with no state change and no remote call.  On any other
reachable state (under a store that hands out nonempty session ids) it
returns success, moves to Aborted, clears the session id, pending buffer and
recorded parts, issues exactly one remote abort when a session id is present
and none otherwise, and a remote failure cannot change any of this. -/
theorem claim_C4 (cfg : S3Config) (u : S3StreamingUpload) (w : World)
    (h : Reachable cfg u w) (he : NonemptyUploadIds w.env) :
    ((u.status = UploadStatus.Completed ∨ u.status = UploadStatus.Aborted) →
      S3StreamingUpload.abort cfg u w = (Except.ok (), u, w)) ∧
    (¬(u.status = UploadStatus.Completed ∨ u.status = UploadStatus.Aborted) →
      ∃ u2 w2,
        S3StreamingUpload.abort cfg u w = (Except.ok (), u2, w2) ∧
        u2.status = UploadStatus.Aborted ∧
        u2.impl.upload_id = "" ∧
        u2.impl.buffered_data = [] ∧
        u2.impl.completed_parts = [] ∧
        (u.impl.upload_id ≠ "" → w2.calls = w.calls ++
          [RemoteCall.abortMultipartUpload cfg.bucket u.impl.full_key u.impl.upload_id]) ∧
        (u.impl.upload_id = "" → w2 = w)) := by
  have hs := reachable_sessionInv cfg u w h he
  constructor
  · intro ht
    unfold S3StreamingUpload.abort
    rw [if_pos ht]
  · intro hnt
    by_cases hid : u.impl.upload_id = ""
    · have habort : ImplState.abort cfg u.impl w = (Except.ok (), u.impl, w) := by
        unfold ImplState.abort
        rw [if_pos ((String.isEmpty_iff _).mpr hid)]
      refine ⟨{ u with status := UploadStatus.Aborted }, w, ?_, rfl, hid, (hs.2 hid).1,
        (hs.2 hid).2, fun hcon => absurd hid hcon, fun _ => rfl⟩
      unfold S3StreamingUpload.abort
      rw [if_neg hnt, habort]
    · have hidb : u.impl.upload_id.isEmpty = false := by
        cases hb2 : u.impl.upload_id.isEmpty
        · rfl
        · exact absurd ((String.isEmpty_iff _).mp hb2) hid
      have habort : ImplState.abort cfg u.impl w =
          (Except.ok (),
           { u.impl with upload_id := "", completed_parts := [], buffered_data := [] },
           { w with calls := w.calls ++
              [RemoteCall.abortMultipartUpload cfg.bucket u.impl.full_key u.impl.upload_id] }) := by
        unfold ImplState.abort
        rw [hidb]
        simp only [Bool.false_eq_true, if_false, callRemote]
      refine ⟨{ u with
          impl := { u.impl with upload_id := "", completed_parts := [], buffered_data := [] },
          status := UploadStatus.Aborted },
        { w with calls := w.calls ++
          [RemoteCall.abortMultipartUpload cfg.bucket u.impl.full_key u.impl.upload_id] },
        ?_, rfl, rfl, rfl, rfl, fun _ => rfl, fun hcon => absurd hcon hid⟩
      unfold S3StreamingUpload.abort
      rw [if_neg hnt, habort]

theorem claim_C4_witness :
    (S3StreamingUpload.abort cfgW (S3StreamingUpload.create cfgW "k" 0) wW).2.1.status =
      UploadStatus.Aborted := by
  have henvW : NonemptyUploadIds wW.env := by
    intro n b k s hsx
    injection hsx with hx
    rw [← hx]
    decide
  obtain ⟨u2, w2, heq, hst, -⟩ := (claim_C4 cfgW (S3StreamingUpload.create cfgW "k" 0) wW
    (Reachable.start "k" 0 wW) henvW).2 (by decide)
  rw [heq]
  exact hst

/-- Claim C6 (amended): teardown aborts exactly when the instance is still
InProgress — then abort runs once, issuing one remote abort call when a
session id is present and none otherwise, and the instance ends Aborted.  In
every other state, including Failed where `complete` never succeeded,
teardown performs nothing at all. -/
theorem claim_C6 (cfg : S3Config) (u : S3StreamingUpload) (w : World) :
    (u.status = UploadStatus.InProgress →
      ∃ u2 w2, S3StreamingUpload.destroy cfg u w = (u2, w2) ∧
        u2.status = UploadStatus.Aborted ∧
        (u.impl.upload_id ≠ "" → w2.calls = w.calls ++
          [RemoteCall.abortMultipartUpload cfg.bucket u.impl.full_key u.impl.upload_id]) ∧
        (u.impl.upload_id = "" → w2 = w)) ∧
    (u.status ≠ UploadStatus.InProgress → S3StreamingUpload.destroy cfg u w = (u, w)) := by
  constructor
  · intro h
    unfold S3StreamingUpload.destroy
    rw [if_pos h]
    unfold S3StreamingUpload.abort
    rw [if_neg (by simp [h])]
    by_cases hid : u.impl.upload_id = ""
    · have habort : ImplState.abort cfg u.impl w = (Except.ok (), u.impl, w) := by
        unfold ImplState.abort
        rw [if_pos ((String.isEmpty_iff _).mpr hid)]
      rw [habort]
      exact ⟨{ u with status := UploadStatus.Aborted }, w, rfl, rfl,
        fun hcon => absurd hid hcon, fun _ => rfl⟩
    · have hidb : u.impl.upload_id.isEmpty = false := by
        cases hb2 : u.impl.upload_id.isEmpty
        · rfl
        · exact absurd ((String.isEmpty_iff _).mp hb2) hid
      have habort : ImplState.abort cfg u.impl w =
          (Except.ok (),
           { u.impl with upload_id := "", completed_parts := [], buffered_data := [] },
           { w with calls := w.calls ++
              [RemoteCall.abortMultipartUpload cfg.bucket u.impl.full_key u.impl.upload_id] }) := by
        unfold ImplState.abort
        rw [hidb]
        simp only [Bool.false_eq_true, if_false, callRemote]
      rw [habort]
      exact ⟨{ u with
          impl := { u.impl with upload_id := "", completed_parts := [], buffered_data := [] },
          status := UploadStatus.Aborted },
        { w with calls := w.calls ++
          [RemoteCall.abortMultipartUpload cfg.bucket u.impl.full_key u.impl.upload_id] },
        rfl, rfl, fun _ => rfl, fun hcon => absurd hcon hid⟩
  · intro h
    unfold S3StreamingUpload.destroy
    rw [if_neg h]

theorem claim_C6_witness :
    (S3StreamingUpload.destroy cfgW uIP wW).1.status = UploadStatus.Aborted := by
  obtain ⟨u2, w2, heq, hst, -⟩ := (claim_C6 cfgW uIP wW).1 rfl
  rw [heq]
  exact hst

/-- Claim C6 counterexample: over `envC6`, `init` succeeds with session "U", a
small append succeeds, and `complete` fails at the remote completion call, so
the instance ends Failed and `complete` never succeeded; destroying it then
performs nothing — no abort is invoked during teardown and the whole trace
holds no abort call — refuting "abort is invoked exactly once as part of
teardown whenever complete never succeeded". -/
theorem claim_C6_counterexample :
    stage1C6.1 = Except.ok () ∧
    stage2C6.1 = Except.ok () ∧
    stage3C6.1 = Except.error "Failed to complete multipart upload: boom" ∧
    stage3C6.2.1.status = UploadStatus.Failed ∧
    stage3C6.2.1.impl.upload_id = "U" ∧
    S3StreamingUpload.destroy cfgW stage3C6.2.1 stage3C6.2.2 =
      (stage3C6.2.1, stage3C6.2.2) ∧
    (∀ c ∈ stage3C6.2.2.calls, isAbortCall c = false) := by
  refine ⟨rfl, rfl, rfl, rfl, rfl, rfl, ?_⟩
  decide

/-- Claim C8: on an enabled facade, path-only mode returns the bare
prefix-resolved key with no remote call even when public-URL mode is also
set, and with path-only off, public-URL mode returns the constructed public
URL with no remote call — so path-only takes precedence over public-URL,
which takes precedence over the presigned path. -/
theorem claim_C8 (s : S3Storage) (key : String) (w : World)
    (hen : S3Storage.enabled s = true) :
    (s.config.use_path_only = true →
      S3Storage.get_file_url s key w = (Except.ok (get_full_key s.config key), w)) ∧
    (s.config.use_path_only = false → s.config.use_public_urls = true →
      S3Storage.get_file_url s key w = (Except.ok (get_public_url s.config key), w)) := by
  constructor
  · intro hpo
    unfold S3Storage.get_file_url
    simp [hen, hpo]
  · intro hpo hpub
    unfold S3Storage.get_file_url
    simp [hen, hpo, hpub]

theorem claim_C8_witness :
    S3Storage.get_file_url { config := cfgPO } "k" wW =
      (Except.ok (get_full_key cfgPO "k"), wW) :=
  (claim_C8 { config := cfgPO } "k" wW (by decide)).1 rfl

/-- Claim C9: the public URL is `endpoint/bucket/full_key` for a custom
endpoint with path-style addressing, `https://bucket.stripped-endpoint/full_key`
for a custom endpoint with virtual-host addressing (any http(s) scheme
stripped), and the default regional AWS form with no custom endpoint, where
`full_key` is the prefix-resolved key. -/
theorem claim_C9 (cfg : S3Config) (key : String) :
    (cfg.endpoint ≠ "" → cfg.use_path_style = true →
      get_public_url cfg key =
        cfg.endpoint ++ "/" ++ cfg.bucket ++ "/" ++ get_full_key cfg key) ∧
    (cfg.endpoint ≠ "" → cfg.use_path_style = false →
      get_public_url cfg key =
        "https://" ++ cfg.bucket ++ "." ++ spec_strip_scheme cfg.endpoint ++ "/" ++
          get_full_key cfg key) ∧
    (cfg.endpoint = "" →
      get_public_url cfg key =
        "https://" ++ cfg.bucket ++ ".s3." ++ cfg.region ++ ".amazonaws.com/" ++
          get_full_key cfg key) ∧
    ( cfg.path_prefix = "" → get_full_key cfg key = key) ∧
    ( cfg.path_prefix ≠ "" → get_full_key cfg key = cfg.path_prefix ++ "/" ++ key) := by
  refine ⟨?_, ?_, ?_, ?_, ?_⟩
  · intro hep hps
    have hie : cfg.endpoint.isEmpty = false := by
      cases hb2 : cfg.endpoint.isEmpty
      · rfl
      · exact absurd ((String.isEmpty_iff _).mp hb2) hep
    unfold get_public_url
    simp [hie, hps]
  · intro hep hps
    have hie : cfg.endpoint.isEmpty = false := by
      cases hb2 : cfg.endpoint.isEmpty
      · rfl
      · exact absurd ((String.isEmpty_iff _).mp hb2) hep
    unfold get_public_url spec_strip_scheme
    simp [hie, hps]
  · intro hep
    have hie : cfg.endpoint.isEmpty = true := (String.isEmpty_iff _).mpr hep
    unfold get_public_url
    simp [hie]
  · intro hp
    have hie : ( cfg.path_prefix).isEmpty = true := (String.isEmpty_iff _).mpr hp
    unfold get_full_key
    simp [hie]
  · intro hp
    have hie : ( cfg.path_prefix).isEmpty = false := by
      cases hb2 : ( cfg.path_prefix).isEmpty
      · rfl
      · exact absurd ((String.isEmpty_iff _).mp hb2) hp
    unfold get_full_key
    simp [hie]

theorem claim_C9_witness :
    get_public_url cfgEP "k" =
      "https://" ++ cfgEP.bucket ++ "." ++ spec_strip_scheme cfgEP.endpoint ++ "/" ++
        get_full_key cfgEP "k" :=
  (claim_C9 cfgEP "k").2.1 (by decide) rfl

/-- One unrolling of the fueled upload loop. -/
theorem loopFuel_succ (cfg : S3Config) (f : Nat) (st : ImplState) (w : World) :
    implUploadLoopFuel cfg (f + 1) st w =
      if MIN_PART_SIZE ≤ st.buffered_data.length then
        match ImplState.flush_buffer_part cfg st w false with
        | (Except.error m, st2, w2) => (Except.error m, st2, w2)
        | (Except.ok _, st2, w2) => implUploadLoopFuel cfg f st2 w2
      else (Except.ok (), st, w) := by
  simp only [implUploadLoopFuel]

/-- One unrolling of the upload loop at a buffer of exactly the minimum part
size whose flush fails. -/
theorem loop_first_flush_err (cfg : S3Config) (st : ImplState) (w : World) (m : String)
    (st2 : ImplState) (w2 : World)
    (hlen : st.buffered_data.length = MIN_PART_SIZE)
    (hflush : ImplState.flush_buffer_part cfg st w false = (Except.error m, st2, w2)) :
    implUploadLoop cfg st w = (Except.error m, st2, w2) := by
  unfold implUploadLoop
  rw [hlen]
  rw [show MIN_PART_SIZE = 5242879 + 1 from by decide]
  rw [loopFuel_succ cfg 5242879 st w]
  rw [if_pos (le_of_eq hlen.symm), hflush]

/-- Claim C10 (amended): an `upload_part` call on an InProgress instance that
returns an error is not atomic: the counter is unchanged and the instance
moves to Failed, yet the call's data was already appended to the buffer —
minus the prefixes consumed by the parts that were flushed successfully
earlier within the same call, which all remain recorded. -/
theorem claim_C10 (cfg : S3Config) (u : S3StreamingUpload) (w : World) (off : Int)
    (data : List UInt8) (m : String) (u2 : S3StreamingUpload) (w2 : World)
    (hst : u.status = UploadStatus.InProgress)
    (h : S3StreamingUpload.upload_part cfg u w off data = (Except.error m, u2, w2)) :
    u2.uploaded_bytes = u.uploaded_bytes ∧
    u2.status = UploadStatus.Failed ∧
    ∃ new : List CompletedPart,
      u2.impl.completed_parts = u.impl.completed_parts ++ new ∧
      u2.impl.buffered_data =
        (u.impl.buffered_data ++ data).drop (new.length * MIN_PART_SIZE) := by
  unfold S3StreamingUpload.upload_part at h
  rw [if_neg (by simp [hst])] at h
  split at h
  · rename_i m2 st w1 heq
    injection h with h1 h23
    injection h23 with h2 h3
    subst h2
    obtain ⟨new, hp, hb, -⟩ := impl_upload_shape cfg u.impl w off data _ st w1 heq
    exact ⟨rfl, rfl, new, hp, hb⟩
  · simp at h

theorem claim_C10_witness :
    (S3StreamingUpload.upload_part cfgW uBig wErr 0 []).2.1.uploaded_bytes =
      uBig.uploaded_bytes ∧
    (S3StreamingUpload.upload_part cfgW uBig wErr 0 []).2.1.status = UploadStatus.Failed := by
  have hlenQ : stQ.buffered_data.length = MIN_PART_SIZE := by
    simp [stQ, bigData]
  have hflushQ : ImplState.flush_buffer_part cfgW stQ wErr false =
      (Except.error "Failed to upload part 1: x", stQ, wPush) := by
    rw [flush_false_big cfgW stQ wErr (le_of_eq hlenQ.symm)]
    rfl
  have himp : ImplState.upload_part cfgW uBig.impl wErr 0 [] =
      (Except.error "Failed to upload part 1: x", stQ, wPush) :=
    loop_first_flush_err cfgW stQ wErr "Failed to upload part 1: x" stQ wPush hlenQ hflushQ
  have hcomp : S3StreamingUpload.upload_part cfgW uBig wErr 0 [] =
      (Except.error "Failed to upload part 1: x",
       { uBig with impl := stQ, status := UploadStatus.Failed }, wPush) := by
    unfold S3StreamingUpload.upload_part
    rw [if_neg (by decide), himp]
  have h10 := claim_C10 cfgW uBig wErr 0 [] "Failed to upload part 1: x"
    { uBig with impl := stQ, status := UploadStatus.Failed } wPush rfl hcomp
  rw [hcomp]
  exact ⟨h10.1, h10.2.1⟩

/-- Claim C10 counterexample: over `envOk`, drive an instance to Completed,
then call `upload_part` on it: the call returns an error, yet the instance
does not move to Failed (it stays Completed) and the call's data is not
appended to the pending buffer — so the claim's "for every upload_part call
that returns an error" is too broad: it fails on lifecycle-guard errors. -/
theorem claim_C10_counterexample :
    stage3C10.1 = Except.ok "k" ∧
    stage3C10.2.1.status = UploadStatus.Completed ∧
    S3StreamingUpload.upload_part cfgW stage3C10.2.1 stage3C10.2.2 0 [9] =
      (Except.error "Upload not in progress", stage3C10.2.1, stage3C10.2.2) ∧
    stage3C10.2.1.status ≠ UploadStatus.Failed ∧
    stage3C10.2.1.impl.buffered_data = [] := by
  refine ⟨rfl, rfl, rfl, by decide, rfl⟩

end S3V
